import Mathlib

/-!
Shallow embedding of the signed replication core of `kalite/securesync/models.py`
(the KA Lite secure-sync layer), together with theorems checking the natural
language specification against it.

Conventions of the embedding:
* Django model rows become Lean structures; a null foreign key is encoded as
  the empty string (Django exposes `signed_by_id` which is `None`/`""`-falsy
  for an unset key, and the source only ever tests it for truthiness).
* The external `crypto` module and the stdlib `uuid` functions are not part of
  the repository sources, so they are taken as explicit function parameters
  (`crypto_verify`, `decode_base64`, `deserialize_public_key`, `uuid5`, ...);
  every theorem quantifies over them, and `uuid.UUID.hex` formatting is given
  concretely as 32 lowercase hex digits.
* Fallible Python calls are embedded as `Except String`; a bare `except:`
  block becomes a `match` that maps `.error` to the handler result.
* Python `int` is embedded as `Int` (no overflow on the involved fields).
-/

/-- The value of one Django field as seen by `getattr` inside
`_hashable_representation`: strings, integers, booleans, `None`,
a foreign-key target (a model instance, rendered as its primary key,
and always truthy in Python), or a `datetime.datetime`. -/
inductive Value where
  | none : Value
  | str : String → Value
  | int : Int → Value
  | bool : Bool → Value
  | model : String → Value
  | datetime : Int → Nat → Nat → Nat → Nat → Nat → Value
deriving DecidableEq, Repr

/-- Python truthiness test `if val:` on a field value: `None`, `""`, `0` and
`False` are falsy; model instances and datetimes are always truthy. -/
def Value.isFalsy : Value → Bool
  | .none => true
  | .str s => s = ""
  | .int n => n = 0
  | .bool b => !b
  | .model _ => false
  | .datetime _ _ _ _ _ _ => false

/-- Zero-pad the decimal form of a natural number to at least `w` digits
(Python `%0Nd`). -/
def padNum (w : Nat) (n : Nat) : String :=
  let s := toString n
  String.mk (List.replicate (w - s.length) '0') ++ s

/-- How a truthy field value is rendered inside a `"name=value"` chunk:
a model instance contributes its primary key, a datetime is formatted as
`"%04d-%02d-%02d %d:%02d:%02d"` (hour not zero-padded), and everything else
uses its Python string form (`str`). -/
def Value.render : Value → String
  | .none => "None"
  | .str s => s
  | .int n => toString n
  | .bool b => if b then "True" else "False"
  | .model pk => pk
  | .datetime y mo d h mi s =>
      (if y < 0 then "-" ++ padNum 4 (-y).toNat else padNum 4 y.toNat) ++ "-" ++
      padNum 2 mo ++ "-" ++ padNum 2 d ++ " " ++
      toString h ++ ":" ++ padNum 2 mi ++ ":" ++ padNum 2 s

/-- `_unhashable_fields` from the source: fields never included in the
canonical hash string. -/
def unhashable_fields : List String := ["signature", "signed_by"]

/-- `_always_hash_fields` from the source: fields always prepended to the
hashed field list, in this iteration order. -/
def always_hash_fields : List String := ["signed_version", "id"]

/-- Stable insertion into a lexicographically sorted list of field names
(one step of Python `list.sort()` on strings). -/
def insertSorted (x : String) : List String → List String
  | [] => [x]
  | y :: ys => if x ≤ y then x :: y :: ys else y :: insertSorted x ys

/-- Python `fields.sort()` on field names: ascending lexicographic order. -/
def sortFields (l : List String) : List String :=
  l.foldr insertSorted []

/-- The field list `_hashable_representation` starts from: the explicit list
when one is given and non-empty (Python `if not fields:` treats both `None`
and `[]` as absent), otherwise every stored field name except the
unhashable ones, sorted. -/
def base_fields (fieldsOpt : Option (List String)) (metaFields : List String) : List String :=
  match fieldsOpt with
  | Option.none => sortFields (metaFields.filter (fun f => !unhashable_fields.contains f))
  | some [] => sortFields (metaFields.filter (fun f => !unhashable_fields.contains f))
  | some fs => fs

/-- The final hashed field list: each `_always_hash_fields` entry that is not
already present is prepended, in iteration order (`signed_version` first,
then `id`, so a missing `id` ends up at the very front). -/
def final_fields (fieldsOpt : Option (List String)) (metaFields : List String) : List String :=
  always_hash_fields.foldl (fun fs f => if fs.contains f then fs else f :: fs)
    (base_fields fieldsOpt metaFields)

/-- One chunk of the canonical hash string: `none` when the field value is
falsy (the field is skipped), otherwise the token `"<name>=<value>"`. -/
def mk_chunk (getattr : String → Value) (f : String) : Option String :=
  let v := getattr f
  if v.isFalsy then Option.none else some (f ++ "=" ++ v.render)

/-- The list of `"name=value"` chunks of the canonical hash string. -/
def hash_chunks (getattr : String → Value) (fieldsOpt : Option (List String))
    (metaFields : List String) : List String :=
  (final_fields fieldsOpt metaFields).filterMap (mk_chunk getattr)

/-- Python `"&".join(chunks)`. -/
def joinAmp : List String → String
  | [] => ""
  | [c] => c
  | c :: c2 :: cs => c ++ "&" ++ joinAmp (c2 :: cs)

/-- `SyncedModel._hashable_representation`: the canonical string a record
signs over, as a function of the record attribute view `getattr`, the
optional explicit field list, and the stored field names of the class. -/
def hashable_representation (getattr : String → Value) (fieldsOpt : Option (List String))
    (metaFields : List String) : String :=
  joinAmp (hash_chunks getattr fieldsOpt metaFields)

/-- A `DeviceMetadata` row (trust flags and the counter position). -/
structure DeviceMetadata where
  is_trusted : Bool
  is_own_device : Bool
  counter_position : Int
deriving DecidableEq, Repr

/-- A `Device` row.  It carries all the `SyncedModel` columns plus the
device specific ones; `meta` is the associated `DeviceMetadata` row when one
has been saved (`Device.get_metadata` falls back to a fresh shell). -/
structure Device where
  id : String
  counter : Int
  signature : String
  signed_version : Int
  signed_by_id : String
  zone_fallback_id : String
  deleted : Bool
  name : String
  description : String
  public_key : String
  meta : Option DeviceMetadata
deriving DecidableEq, Repr

/-- `Device.get_metadata`: the existing metadata row, or a fresh unsaved
`DeviceMetadata(device=self)` shell (all flags false, counter 0). -/
def Device.get_metadata (d : Device) : DeviceMetadata :=
  d.meta.getD ⟨false, false, 0⟩

/-- `Device.set_counter_position`: a no-op when the device row has no id yet;
otherwise the stored `counter_position` is raised to `counter_position`
argument when that is strictly larger. -/
def Device.set_counter_position (d : Device) (counter_position : Int) : Device :=
  let m := d.get_metadata
  if d.id = "" then d
  else if counter_position > m.counter_position then
    { d with meta := some { m with counter_position := counter_position } }
  else d

/-- `Device.increment_and_get_counter`: returns 0 and changes nothing when
the device row has no id yet; otherwise increments the stored
`counter_position` and returns the new value. -/
def Device.increment_and_get_counter (d : Device) : Int × Device :=
  let m := d.get_metadata
  if d.id = "" then (0, d)
  else
    let m2 := { m with counter_position := m.counter_position + 1 }
    (m2.counter_position, { d with meta := some m2 })

/-- `k` hexadecimal digits of `n`, most significant first, zero padded
(`n` is taken modulo `16^k`). -/
def toHexFixed : Nat → Nat → List Char
  | 0, _ => []
  | k + 1, n => toHexFixed k (n / 16) ++ [Nat.digitChar (n % 16)]

/-- `uuid.UUID.hex`: the 32 lowercase hex digits of a 128-bit UUID value. -/
def uuidHex (n : Nat) : String :=
  String.mk (toHexFixed 32 n)

/-- The result of `Device.get_uuid`: either the `.hex` 32-character string of
a UUIDv5 (public key present) or a raw `uuid.uuid4()` UUID object. -/
inductive UuidResult where
  | hexStr : String → UuidResult
  | uuidObj : Nat → UuidResult
deriving DecidableEq, Repr

/-- `Device.get_uuid`: with an empty public key, return a freshly generated
random UUIDv4 object (the generator is modelled as a stream `rng` indexed by
a draw position `k`, which the call advances); otherwise return
`uuid5(ROOT_UUID_NAMESPACE, str(public_key)).hex`, without touching the
random stream. -/
def Device.get_uuid (uuid5 : Nat → String → Nat) (root_uuid : Nat) (rng : Nat → Nat)
    (d : Device) (k : Nat) : UuidResult × Nat :=
  if d.public_key = "" then (UuidResult.uuidObj (rng k), k + 1)
  else (UuidResult.hexStr (uuidHex (uuid5 root_uuid d.public_key)), k)

/-- The stored field names of the `Device` class, in Django declaration
order: the `SyncedModel` columns followed by the `Device` columns. -/
def Device.meta_field_names : List String :=
  ["id", "counter", "signature", "signed_version", "signed_by", "zone_fallback", "deleted",
   "name", "description", "public_key"]

/-- The attribute view of a `Device` row used by the canonical hasher. -/
def Device.getattr (d : Device) : String → Value
  | "id" => Value.str d.id
  | "counter" => Value.int d.counter
  | "signature" => Value.str d.signature
  | "signed_version" => Value.int d.signed_version
  | "signed_by" => if d.signed_by_id = "" then Value.none else Value.model d.signed_by_id
  | "zone_fallback" => if d.zone_fallback_id = "" then Value.none else Value.model d.zone_fallback_id
  | "deleted" => Value.bool d.deleted
  | "name" => Value.str d.name
  | "description" => Value.str d.description
  | "public_key" => Value.str d.public_key
  | _ => Value.none

/-- The explicit field list `Device._hashable_representation` passes to the
parent implementation. -/
def Device.hash_fields : List String :=
  ["signed_version", "name", "description", "public_key"]

/-- The chunk list of a `Device` canonical hash string. -/
def Device.hash_chunk_list (d : Device) : List String :=
  hash_chunks d.getattr (some Device.hash_fields) Device.meta_field_names

/-- `Device._hashable_representation`: the parent hasher applied to the
explicit `Device` field list (written through `joinAmp`/`hash_chunks`, which
is the unfolding of the parent `hashable_representation`). -/
def Device.hashable_representation (d : Device) : String :=
  joinAmp d.hash_chunk_list

/-- A row of a (non-`Device`) `SyncedModel` subclass.  `extra` holds the
subclass specific columns with their values, in declaration order;
`requires_trusted_signature` is the class attribute of the same name. -/
structure SyncedModel where
  id : String
  counter : Int
  signature : String
  signed_version : Int
  signed_by_id : String
  zone_fallback_id : String
  deleted : Bool
  extra : List (String × Value)
  requires_trusted_signature : Bool
deriving DecidableEq, Repr

/-- The stored field names of the record class, in Django declaration order:
the `SyncedModel` columns followed by the subclass columns. -/
def SyncedModel.meta_field_names (r : SyncedModel) : List String :=
  ["id", "counter", "signature", "signed_version", "signed_by", "zone_fallback", "deleted"]
    ++ r.extra.map Prod.fst

/-- The attribute view of a record used by the canonical hasher. -/
def SyncedModel.getattr (r : SyncedModel) : String → Value
  | "id" => Value.str r.id
  | "counter" => Value.int r.counter
  | "signature" => Value.str r.signature
  | "signed_version" => Value.int r.signed_version
  | "signed_by" => if r.signed_by_id = "" then Value.none else Value.model r.signed_by_id
  | "zone_fallback" => if r.zone_fallback_id = "" then Value.none else Value.model r.zone_fallback_id
  | "deleted" => Value.bool r.deleted
  | f => ((r.extra.find? (fun p => p.1 = f)).map Prod.snd).getD Value.none

/-- `self._hashable_representation()` of a non-`Device` record: default
field list (no explicit override). -/
def SyncedModel.canonical (r : SyncedModel) : String :=
  hashable_representation r.getattr Option.none r.meta_field_names

/-- `SyncedModel.verify`, with the resolved `signed_by` device passed as
`signer`.  False when unsigned; false when a trusted signature is required
and the signer metadata is not trusted.  Then
`key = self.signed_by.get_public_key()` runs OUTSIDE the try block, so a
failure of `deserialize_public_key` propagates as an exception, while the
bare `except:` around `crypto.verify`/`decode_base64` maps their failures to
false. -/
def SyncedModel.verify {K : Type} (deserialize_public_key : String → Except String K)
    (decode_base64 : String → Except String String)
    (crypto_verify : String → String → K → Except String Bool)
    (r : SyncedModel) (signer : Device) : Except String Bool :=
  if r.signed_by_id = "" then Except.ok false
  else if r.requires_trusted_signature && !(signer.get_metadata).is_trusted then Except.ok false
  else
    match deserialize_public_key signer.public_key with
    | Except.error e => Except.error e
    | Except.ok key =>
      match (do
        let sig ← decode_base64 r.signature
        crypto_verify r.canonical sig key : Except String Bool) with
      | Except.ok b => Except.ok b
      | Except.error _ => Except.ok false

/-- `SyncedModel.get_uuid`: UUIDv5 over the namespace `UUID(own_device.id)`
(falling back to `ROOT_UUID_NAMESPACE` when the own device has no id yet)
and `str(self.counter)`, rendered as the 32-character `.hex` string. -/
def SyncedModel.get_uuid (uuid5 : Nat → String → Nat) (parse_uuid : String → Nat)
    (root_uuid : Nat) (own : Device) (r : SyncedModel) : String :=
  let ns := if own.id = "" then root_uuid else parse_uuid own.id
  uuidHex (uuid5 ns (toString r.counter))

/-- The errors `SyncedModel.save` can surface: a Django `ValidationError`,
or an exception propagated out of `verify()`. -/
inductive SaveError where
  | validation : String → SaveError
  | exception : String → SaveError
deriving DecidableEq, Repr

/-- The state after a successful `SyncedModel.save`: the committed record,
the own device row, and the resolved `signed_by` device row. -/
structure SaveResult where
  record : SyncedModel
  own : Device
  signer : Device
deriving DecidableEq, Repr

/-- `SyncedModel.save`.  `ownesc` is `own_device or Device.get_own_device()`
(None only if no own device could be resolved); `signer` is the resolved
`signed_by` row used by the imported path.  Imported mode requires a signer
and a passing `verify()` and then advances the signer counter position;
local mode assigns the next own counter, derives the id through `get_uuid`
when it starts empty, and signs with the own device. -/
def SyncedModel.save {K : Type} (deserialize_public_key : String → Except String K)
    (decode_base64 : String → Except String String)
    (crypto_verify : String → String → K → Except String Bool)
    (uuid5 : Nat → String → Nat) (parse_uuid : String → Nat) (root_uuid : Nat)
    (sign_b64 : String → String)
    (ownesc : Option Device) (signer : Device) (imported : Bool)
    (r : SyncedModel) : Except SaveError SaveResult :=
  match ownesc with
  | Option.none => Except.error (SaveError.validation
      "Cannot save any synced models before registering this Device.")
  | some own =>
    if imported then
      if r.signed_by_id = "" then
        Except.error (SaveError.validation "Imported models must be signed.")
      else
        match r.verify deserialize_public_key decode_base64 crypto_verify signer with
        | Except.error e => Except.error (SaveError.exception e)
        | Except.ok false =>
            Except.error (SaveError.validation "Imported model signature did not match.")
        | Except.ok true =>
            Except.ok ⟨r, own, signer.set_counter_position r.counter⟩
    else
      let step := own.increment_and_get_counter
      let own1 := step.2
      let r1 := { r with counter := step.1 }
      let r2 := if r1.id = "" then
          { r1 with id := r1.get_uuid uuid5 parse_uuid root_uuid own1 } else r1
      let r3 := { r2 with signed_by_id := own1.id }
      let r4 := { r3 with signature := sign_b64 r3.canonical }
      Except.ok ⟨r4, own1, signer⟩

/-- One record held by a device for the batch selector: its `counter` and
whether its `zone_fallback` equals the requested zone. -/
structure SelRec where
  counter : Int
  fallback_in_zone : Bool
deriving DecidableEq, Repr

/-- One device as seen by the batch selector: whether it is in the requested
zone, whether its metadata is trusted, and the records it signed (for the
single syncable record class being pulled). -/
structure SelDevice where
  in_zone : Bool
  is_trusted : Bool
  recs : List SelRec
deriving DecidableEq, Repr

/-- The pre-loop filter of `get_serialized_models`: requested devices that
do not exist, or are neither in the zone nor trusted, are dropped from
`device_counters`. -/
def filter_device_counters (reqs : List (Option SelDevice × Int)) : List (SelDevice × Int) :=
  reqs.filterMap (fun dc =>
    match dc.1 with
    | Option.none => Option.none
    | some d => if d.in_zone || d.is_trusted then some (d, dc.2) else Option.none)

/-- The per-device queryset inside the pull loop: every record of an
in-zone device; only matching-`zone_fallback` records of a trusted
out-of-zone device; `none` (the loop `continue`) otherwise. -/
def device_queryset (d : SelDevice) : Option (List SelRec) :=
  if d.in_zone then some d.recs
  else if d.is_trusted then some (d.recs.filter (fun r => r.fallback_in_zone))
  else Option.none

/-- One pass of the pull loop body over all `(device, counter)` pairs (one
syncable record class): accumulates the counters of records in
`[counter, counter + limit + boost)` and whether any device still has a
record at `counter + limit + boost` or beyond (`instances_remaining`). -/
def round_models (limit boost : Int) (devs : List (SelDevice × Int)) : List Int × Bool :=
  devs.foldl (fun acc dc =>
    match device_queryset dc.1 with
    | Option.none => acc
    | some qs =>
      let counter := dc.2
      let remaining := acc.2 || qs.any (fun r => decide (counter + limit + boost ≤ r.counter))
      let sel := (qs.filter (fun r =>
        decide (counter ≤ r.counter) && decide (r.counter < counter + limit + boost))).map SelRec.counter
      (acc.1 ++ sel, remaining)) ([], false)

/-- The `while True:` pull loop of `get_serialized_models`: stop when the
pass found records or nothing remains; otherwise boost the window by
`limit` and retry.  The source loop is unbounded, so the embedding carries
fuel; exhausted fuel returns the empty selection. -/
def get_serialized_models_loop (limit : Int) (devs : List (SelDevice × Int)) :
    Nat → Int → List Int
  | 0, _ => []
  | fuel + 1, boost =>
    let pass := round_models limit boost devs
    if pass.1.length > 0 || !pass.2 then pass.1
    else get_serialized_models_loop limit devs fuel (boost + limit)

/-- `get_serialized_models` (single syncable record class), returning the
counters of the selected records: filter the requested devices, then run
the boosted pull loop starting from `boost = 0`. -/
def get_serialized_models (reqs : List (Option SelDevice × Int)) (limit : Int)
    (fuel : Nat) : List Int :=
  get_serialized_models_loop limit (filter_device_counters reqs) fuel 0

/-- Modelled from the spec: the sync client that drives repeated calls of
`get_serialized_models` is not part of this source file; the spec only says
it "advances its known counter after each round".  We take the reading that
makes the rounds cover fresh records: the new known counter is one past the
highest counter retrieved in the round (unchanged when the round was
empty). -/
def advance_counter (prev : Int) (models : List Int) : Int :=
  (models.foldl max prev) + 1

/-- An `ImportPurgatory` row. -/
structure ImportPurgatory where
  counter : Int
  retry_attempts : Int
  serialized_models : String
  exceptions : String
deriving DecidableEq, Repr

/-- `ImportPurgatory.save`: fills in `counter` from the own device counter
when it is still falsy, then commits the row. -/
def ImportPurgatory.save_row (own_counter : Int) (p : ImportPurgatory) : ImportPurgatory :=
  if p.counter = 0 then { p with counter := own_counter } else p

/-- The input of `save_serialized_models`: either a purgatory row being
retried (its `serialized_models` text is deserialized) or fresh data. -/
inductive ImportInput (ρ : Type) where
  | purgatory : ImportPurgatory → ImportInput ρ
  | raw : List ρ → ImportInput ρ

/-- The import loop of `save_serialized_models` over the deserialized
records: thread the store state, count successful `save(imported=True)`
calls, and collect each record whose save raised a `ValidationError`
together with its error text, in encounter order. -/
def attempt_saves {ρ σ : Type} (save_one : ρ → σ → Except String σ) :
    List ρ → σ → σ × Nat × List (ρ × String)
  | [], st => (st, 0, [])
  | m :: rest, st =>
    match save_one m st with
    | Except.ok st1 =>
      let out := attempt_saves save_one rest st1
      (out.1, out.2.1 + 1, out.2.2)
    | Except.error e =>
      let out := attempt_saves save_one rest st
      (out.1, out.2.1, (m, e) :: out.2.2)

/-- The outcome of `save_serialized_models`: the store state, the returned
counts, and the purgatory row that exists afterwards (`none` when no row
remains, in particular when a retried row was deleted). -/
structure ImportOutcome (σ : Type) where
  state : σ
  saved_model_count : Nat
  unsaved_model_count : Nat
  purgatory_row : Option ImportPurgatory

/-- `save_serialized_models`: deserialize (from the purgatory row or the
raw data), try an imported save per record, and then either write a
purgatory row holding the re-serialized unsaved records, the concatenated
error text (one `"%s\n"` per error) and an incremented `retry_attempts`, or
delete the retried row when everything saved. -/
def save_serialized_models {ρ σ : Type} (serialize : List ρ → String)
    (deserialize : String → List ρ) (save_one : ρ → σ → Except String σ)
    (own_counter : Int) (data : ImportInput ρ) (st : σ) : ImportOutcome σ :=
  let purg : Option ImportPurgatory :=
    match data with
    | ImportInput.purgatory p => some p
    | ImportInput.raw _ => Option.none
  let ms : List ρ :=
    match data with
    | ImportInput.purgatory p => deserialize p.serialized_models
    | ImportInput.raw l => l
  let out := attempt_saves save_one ms st
  let unsaved_models := out.2.2.map Prod.fst
  let exceptions := (out.2.2.map (fun p => p.2 ++ "\n")).foldr (· ++ ·) ""
  let row : Option ImportPurgatory :=
    if unsaved_models.isEmpty then Option.none
    else
      let p0 := purg.getD ⟨0, 0, "", ""⟩
      some (ImportPurgatory.save_row own_counter
        { p0 with serialized_models := serialize unsaved_models,
                  exceptions := exceptions,
                  retry_attempts := p0.retry_attempts + 1 })
  ⟨out.1, out.2.1, unsaved_models.length, row⟩

/-- One call against the device counter API: `set_counter_position n` or
`increment_and_get_counter`. -/
inductive CounterOp where
  | set : Int → CounterOp
  | incr : CounterOp
deriving DecidableEq, Repr

/-- Apply one counter API call to a device row. -/
def apply_counter_op (d : Device) : CounterOp → Device
  | CounterOp.set n => d.set_counter_position n
  | CounterOp.incr => (d.increment_and_get_counter).2

/-- Apply a sequence of counter API calls to a device row. -/
def apply_counter_ops (d : Device) (ops : List CounterOp) : Device :=
  ops.foldl apply_counter_op d

/-- `N` successive `increment_and_get_counter` calls: the returned values in
call order, and the final device row. -/
def call_counter_n : Device → Nat → List Int × Device
  | d, 0 => ([], d)
  | d, n + 1 =>
    let step := d.increment_and_get_counter
    let rest := call_counter_n step.2 n
    (step.1 :: rest.1, rest.2)

/-- A device row with every column empty or default. -/
def blankDevice : Device :=
  ⟨"", 0, "", 1, "", "", false, "", "", "", Option.none⟩

/-- A persisted device row with a saved metadata row at counter 5. -/
def ownDevice5 : Device :=
  { blankDevice with id := "own1", meta := some ⟨false, true, 5⟩ }

/-- A persisted device row with a saved metadata row at counter 3. -/
def remoteDevice3 : Device :=
  { blankDevice with id := "aa", meta := some ⟨false, false, 3⟩ }

/-- An unpersisted device row (empty id) that nevertheless has a metadata
row, used to exercise the empty-id guard of `set_counter_position`. -/
def unsavedDevice : Device :=
  { blankDevice with meta := some ⟨false, false, 0⟩ }

/-- A device row with a public key only. -/
def keyedDevice : Device :=
  { blankDevice with public_key := "KEY" }

/-- A concrete device used for the `Device` canonical-hash computation:
persisted id, a name and a public key, an empty description. -/
def namedDevice : Device :=
  { blankDevice with
    id := "abc"
    counter := 7
    name := "n"
    public_key := "k"
    signed_by_id := "abc"
    signature := "sig" }


/-- A record row with every column empty or default, one subclass column
(`username`, as on a `FacilityUser`). -/
def blankRecord : SyncedModel :=
  ⟨"", 0, "", 1, "", "", false, [("username", Value.str "alice")], false⟩

/-- A signed record row (non-empty `signed_by_id` and `signature`). -/
def signedRecord : SyncedModel :=
  { blankRecord with
    signed_by_id := "dev1"
    signature := "sig" }

/-- A signed record row that requires a trusted signature. -/
def trustRecord : SyncedModel :=
  { signedRecord with requires_trusted_signature := true }

/-- A public-key deserializer that always fails (a malformed stored key). -/
def badKeyDes : String → Except String Unit := fun _ => Except.error "bad key"

/-- A public-key deserializer that always succeeds. -/
def okUnitDes : String → Except String Unit := fun _ => Except.ok ()

/-- A base64 decoder that always succeeds (identity). -/
def okDecode : String → Except String String := fun s => Except.ok s

/-- A base64 decoder that always fails (malformed signature text). -/
def badDecode : String → Except String String := fun _ => Except.error "bad b64"

/-- A signature check that always accepts. -/
def okVerify : String → String → Unit → Except String Bool := fun _ _ _ => Except.ok true

/-- A signature check that always rejects. -/
def falseVerify : String → String → Unit → Except String Bool := fun _ _ _ => Except.ok false

/-- A concrete stand-in for `uuid.uuid5` used in witnesses. -/
def demoUuid5 : Nat → String → Nat := fun a s => a + s.length

/-- A concrete stand-in for `base64(crypto.sign(...))` used in witnesses. -/
def demoSign : String → String := fun s => s

/-- The scenario device of the batch-completeness check: in the zone, not
trusted, holding 250 records with counters 1 through 250. -/
def deviceD : SelDevice :=
  ⟨true, false, (List.range 250).map (fun (i : Nat) => ⟨(i : Int) + 1, false⟩)⟩

/-- Round 1 of the scenario: peer knowledge 0, limit 100. -/
def c5_round1 : List Int := get_serialized_models [(some deviceD, 0)] 100 10

/-- The advanced counter after round 1. -/
def c5_counter2 : Int := advance_counter 0 c5_round1

/-- Round 2 of the scenario. -/
def c5_round2 : List Int := get_serialized_models [(some deviceD, c5_counter2)] 100 10

/-- The advanced counter after round 2. -/
def c5_counter3 : Int := advance_counter c5_counter2 c5_round2

/-- Round 3 of the scenario. -/
def c5_round3 : List Int := get_serialized_models [(some deviceD, c5_counter3)] 100 10

/-- An attribute view whose `name` field is falsy (empty string). -/
def attrsFalsyName : String → Value :=
  fun f => if f = "name" then Value.str "" else Value.str "x"

/-- The same attribute view with `name` flipped to a truthy value. -/
def attrsTruthyName : String → Value :=
  fun f => if f = "name" then Value.str "n" else Value.str "x"

/-- The deserialized input record list of `save_serialized_models`: the
records of the purgatory row being retried, or the raw data. -/
def importedModels {ρ : Type} (deserialize : String → List ρ) :
    ImportInput ρ → List ρ
  | ImportInput.purgatory p => deserialize p.serialized_models
  | ImportInput.raw l => l

/-- A per-record imported save that accepts even numbers and raises a
validation error on odd ones. -/
def evenSave : Nat → Unit → Except String Unit :=
  fun m _ => if m % 2 = 0 then Except.ok () else Except.error "odd"

/-- A concrete serializer for witness scenarios. -/
def demoSerialize : List Nat → String := fun l => toString l

/-- A concrete deserializer for witness scenarios. -/
def demoDeserialize : String → List Nat :=
  fun s => if s = "blob" then [2, 4] else [1, 2, 3]

theorem toHexFixed_length (k : Nat) : ∀ n, (toHexFixed k n).length = k := by
  induction k with
  | zero => intro n; rfl
  | succ k ih => intro n; simp [toHexFixed, ih]

theorem uuidHex_length (n : Nat) : (uuidHex n).length = 32 := by
  simp [uuidHex, String.length, toHexFixed_length]

theorem increment_and_get_counter_id (d : Device) :
    (d.increment_and_get_counter).2.id = d.id := by
  by_cases h : d.id = "" <;> simp [Device.increment_and_get_counter, h]

theorem increment_and_get_counter_fst (d : Device) (h : d.id ≠ "") :
    (d.increment_and_get_counter).1 = d.get_metadata.counter_position + 1 := by
  simp [Device.increment_and_get_counter, h]

theorem increment_and_get_counter_cp (d : Device) (h : d.id ≠ "") :
    (d.increment_and_get_counter).2.get_metadata.counter_position =
      d.get_metadata.counter_position + 1 := by
  simp [Device.increment_and_get_counter, h, Device.get_metadata]

theorem set_counter_position_cp (d : Device) (h : d.id ≠ "") (n : Int) :
    (d.set_counter_position n).get_metadata.counter_position =
      max d.get_metadata.counter_position n := by
  simp only [Device.set_counter_position, Device.get_metadata]
  rw [if_neg h]
  split
  · next h2 => simp; omega
  · next h2 => omega

theorem counter_position_step_mono (d : Device) (op : CounterOp) :
    d.get_metadata.counter_position ≤ (apply_counter_op d op).get_metadata.counter_position := by
  cases op with
  | set n =>
    by_cases h : d.id = ""
    · simp [apply_counter_op, Device.set_counter_position, h]
    · rw [apply_counter_op, set_counter_position_cp d h n]
      exact le_max_left _ _
  | incr =>
    by_cases h : d.id = ""
    · simp [apply_counter_op, Device.increment_and_get_counter, h]
    · rw [apply_counter_op, increment_and_get_counter_cp d h]
      omega

theorem counter_position_ops_mono (d : Device) (ops : List CounterOp) :
    d.get_metadata.counter_position ≤ (apply_counter_ops d ops).get_metadata.counter_position := by
  induction ops generalizing d with
  | nil => simp [apply_counter_ops]
  | cons op rest ih =>
    calc d.get_metadata.counter_position
        ≤ (apply_counter_op d op).get_metadata.counter_position :=
          counter_position_step_mono d op
      _ ≤ _ := by simpa [apply_counter_ops] using ih (apply_counter_op d op)

/-- C6 counterexample: on a device row with an empty id (and a saved
metadata row at counter 0), `set_counter_position 5` leaves the counter
position at 0, not at `max 0 5 = 5`, so the claim fails for such a device. -/
theorem C6_counterexample :
    ¬ ((unsavedDevice.set_counter_position 5).get_metadata.counter_position =
        max unsavedDevice.get_metadata.counter_position 5) := by
  decide

/-- C6 (amended): for every device with a non-empty id, `set_counter_position n`
leaves the counter position at the maximum of its previous value and `n`
(for a device with an empty id the call is a no-op); and the counter
position is non-decreasing across every sequence of `set_counter_position`
and `increment_and_get_counter` calls. -/
theorem C6_set_counter_position_max (d : Device) (n : Int) (ops : List CounterOp) :
    (d.id ≠ "" →
      (d.set_counter_position n).get_metadata.counter_position =
        max d.get_metadata.counter_position n) ∧
    d.get_metadata.counter_position ≤
      (apply_counter_ops d ops).get_metadata.counter_position :=
  ⟨fun h => set_counter_position_cp d h n, counter_position_ops_mono d ops⟩

/-- C6 witness: the amended statement instantiated at a persisted device
with counter position 3, `n = 7`, and a concrete call sequence. -/
theorem C6_set_counter_position_max_witness :
    (remoteDevice3.id ≠ "" ∧
      (remoteDevice3.set_counter_position 7).get_metadata.counter_position =
        max remoteDevice3.get_metadata.counter_position 7) ∧
    remoteDevice3.get_metadata.counter_position ≤
      (apply_counter_ops remoteDevice3 [CounterOp.set 5, CounterOp.incr]).get_metadata.counter_position :=
  ⟨⟨by decide, (C6_set_counter_position_max remoteDevice3 7 []).1 (by decide)⟩,
   (C6_set_counter_position_max remoteDevice3 7 [CounterOp.set 5, CounterOp.incr]).2⟩

theorem range_map_shift (k : Int) (N : Nat) :
    (k + 1) :: (List.range N).map (fun (i : Nat) => k + 1 + (i : Int) + 1) =
      (List.range (N + 1)).map (fun (i : Nat) => k + (i : Int) + 1) := by
  rw [List.range_succ_eq_map, List.map_cons, List.map_map]
  congr 1
  · norm_num
  · apply List.map_congr_left
    intro a _
    simp only [Function.comp]
    push_cast
    ring

/-- C7: `increment_and_get_counter` returns 0 and leaves the device row
unchanged when the device row has not been persisted yet (empty id); once
persisted, each call increments the stored counter position by one and
returns the new value, so N successive calls starting from counter k return
exactly k+1, ..., k+N, with no gaps or duplicates. -/
theorem C7_increment_and_get_counter (d : Device) (N : Nat) :
    (d.id = "" → d.increment_and_get_counter = (0, d)) ∧
    (d.id ≠ "" → (call_counter_n d N).1 =
      (List.range N).map (fun (i : Nat) => d.get_metadata.counter_position + (i : Int) + 1)) := by
  constructor
  · intro h
    simp [Device.increment_and_get_counter, h]
  · induction N generalizing d with
    | zero => intro h; simp [call_counter_n]
    | succ N ih =>
      intro h
      have h2 : (d.increment_and_get_counter).2.id ≠ "" := by
        rw [increment_and_get_counter_id]; exact h
      have hih := ih (d.increment_and_get_counter).2 h2
      have hunf : (call_counter_n d (N + 1)).1 =
          (d.increment_and_get_counter).1 ::
            (call_counter_n (d.increment_and_get_counter).2 N).1 := rfl
      rw [hunf, hih, increment_and_get_counter_fst d h, increment_and_get_counter_cp d h]
      exact range_map_shift d.get_metadata.counter_position N

/-- C7 witness: the empty-id branch at `blankDevice` and the persisted
branch at a device with counter position 5 and three calls, which return
6, 7, 8. -/
theorem C7_increment_and_get_counter_witness :
    (blankDevice.id = "" ∧ blankDevice.increment_and_get_counter = (0, blankDevice)) ∧
    (ownDevice5.id ≠ "" ∧ (call_counter_n ownDevice5 3).1 = [6, 7, 8]) := by
  refine ⟨⟨rfl, (C7_increment_and_get_counter blankDevice 0).1 rfl⟩, ⟨by decide, ?_⟩⟩
  rw [(C7_increment_and_get_counter ownDevice5 3).2 (by decide)]
  decide

/-- C10: `Device.get_uuid` is deterministic only when a public key is
present: with a non-empty public key it returns the 32-character hex string
`uuid5(ROOT_UUID_NAMESPACE, str(public_key)).hex` and does not draw from
the random stream, while with an empty public key two successive calls
return freshly generated UUIDv4 objects (not hex strings), which differ
whenever the two random draws differ. -/
theorem C10_device_get_uuid (uuid5 : Nat → String → Nat) (root_uuid : Nat)
    (rng : Nat → Nat) (d : Device) (k : Nat) :
    (d.public_key ≠ "" →
      d.get_uuid uuid5 root_uuid rng k =
        (UuidResult.hexStr (uuidHex (uuid5 root_uuid d.public_key)), k) ∧
      (uuidHex (uuid5 root_uuid d.public_key)).length = 32) ∧
    (d.public_key = "" → rng k ≠ rng (k + 1) →
      d.get_uuid uuid5 root_uuid rng k = (UuidResult.uuidObj (rng k), k + 1) ∧
      d.get_uuid uuid5 root_uuid rng (k + 1) = (UuidResult.uuidObj (rng (k + 1)), k + 2) ∧
      UuidResult.uuidObj (rng k) ≠ UuidResult.uuidObj (rng (k + 1))) := by
  constructor
  · intro h
    exact ⟨by simp [Device.get_uuid, h], uuidHex_length _⟩
  · intro h hne
    refine ⟨by simp [Device.get_uuid, h], by simp [Device.get_uuid, h], ?_⟩
    intro hEq
    exact hne (UuidResult.uuidObj.inj hEq)

/-- C10 witness: the keyed branch at a device with public key `"KEY"` (with
a concrete `uuid5`), and the empty-key branch at `blankDevice` with the
identity random stream, whose first two draws 0 and 1 differ. -/
theorem C10_device_get_uuid_witness :
    (keyedDevice.public_key ≠ "" ∧
      keyedDevice.get_uuid (fun _ _ => 291) 0 (fun j => j) 0 =
        (UuidResult.hexStr (uuidHex 291), 0) ∧
      (uuidHex 291).length = 32) ∧
    (blankDevice.public_key = "" ∧
      blankDevice.get_uuid (fun _ _ => 291) 0 (fun j => j) 0 = (UuidResult.uuidObj 0, 1) ∧
      blankDevice.get_uuid (fun _ _ => 291) 0 (fun j => j) 1 = (UuidResult.uuidObj 1, 2) ∧
      UuidResult.uuidObj 0 ≠ UuidResult.uuidObj 1) := by
  refine ⟨⟨by decide, ?_⟩, ⟨rfl, ?_⟩⟩
  · exact (C10_device_get_uuid (fun _ _ => 291) 0 (fun j => j) keyedDevice 0).1 (by decide)
  · exact (C10_device_get_uuid (fun _ _ => 291) 0 (fun j => j) blankDevice 0).2 rfl (by decide)

/-- C3 counterexample: for the concrete device `namedDevice` (id `"abc"`),
the canonical hash chunk list contains the token `"id=abc"` and the
canonical string starts with it: the `id` field does contribute to a
`Device` canonical hash, contradicting the claim that the hash is built
from exactly `[signed_version, name, description, public_key]` with no id
token. -/
theorem C3_counterexample :
    "id=abc" ∈ namedDevice.hash_chunk_list ∧
    namedDevice.hashable_representation =
      "id=abc&signed_version=1&name=n&public_key=k" := by
  decide

/-- C3 (amended): the hashed field list of a `Device` is exactly
`[id, signed_version, name, description, public_key]` in that order (the
always-hash rule prepends `id` to the explicit override list), so `counter`
never contributes a token, and `id` contributes whenever it is non-empty. -/
theorem C3_device_hash_fields (d : Device) :
    final_fields (some Device.hash_fields) Device.meta_field_names =
      ["id", "signed_version", "name", "description", "public_key"] ∧
    "counter" ∉ final_fields (some Device.hash_fields) Device.meta_field_names ∧
    d.hash_chunk_list =
      ["id", "signed_version", "name", "description", "public_key"].filterMap
        (mk_chunk d.getattr) :=
  ⟨by decide, by decide, rfl⟩

theorem save_local_spec (K : Type) (des : String → Except String K)
    (dec : String → Except String String) (cv : String → String → K → Except String Bool)
    (uuid5 : Nat → String → Nat) (parse_uuid : String → Nat) (root_uuid : Nat)
    (sign_b64 : String → String) (own signer : Device) (r : SyncedModel)
    (hid : r.id = "") :
    ∀ res, SyncedModel.save des dec cv uuid5 parse_uuid root_uuid sign_b64
        (some own) signer false r = Except.ok res →
      res.record.signed_by_id = own.id ∧
      res.record.counter = (own.increment_and_get_counter).1 ∧
      res.record.id = uuidHex (uuid5
        (if own.id = "" then root_uuid else parse_uuid own.id)
        (toString (own.increment_and_get_counter).1)) := by
  intro res hres
  simp [SyncedModel.save, hid] at hres
  subst hres
  refine ⟨increment_and_get_counter_id own, rfl, ?_⟩
  simp [SyncedModel.get_uuid, increment_and_get_counter_id own]

/-- C1: for every record saved locally (imported = false) after own-device
bootstrap (non-empty own id), when the record id starts empty, the id
assigned by `save` equals `uuidv5(UUID(signed_by.id), str(counter)).hex`
where `counter` is the counter assigned by that same save; hence
`(signed_by, counter)` uniquely determines the id across such saves. -/
theorem C1_local_save_id (K : Type) (des : String → Except String K)
    (dec : String → Except String String) (cv : String → String → K → Except String Bool)
    (uuid5 : Nat → String → Nat) (parse_uuid : String → Nat) (root_uuid : Nat)
    (sign_b64 : String → String) (own own2 signer signer2 : Device)
    (r r2 : SyncedModel) (hboot : own.id ≠ "") (hid : r.id = "")
    (hboot2 : own2.id ≠ "") (hid2 : r2.id = "") :
    ∀ res res2,
      SyncedModel.save des dec cv uuid5 parse_uuid root_uuid sign_b64
        (some own) signer false r = Except.ok res →
      SyncedModel.save des dec cv uuid5 parse_uuid root_uuid sign_b64
        (some own2) signer2 false r2 = Except.ok res2 →
      (res.record.signed_by_id = own.id ∧
        res.record.id = uuidHex (uuid5 (parse_uuid res.record.signed_by_id)
          (toString res.record.counter))) ∧
      (res.record.signed_by_id = res2.record.signed_by_id →
        res.record.counter = res2.record.counter →
        res.record.id = res2.record.id) := by
  intro res res2 hres hres2
  obtain ⟨hs, hc, hi⟩ := save_local_spec K des dec cv uuid5 parse_uuid root_uuid sign_b64
    own signer r hid res hres
  obtain ⟨hs2, hc2, hi2⟩ := save_local_spec K des dec cv uuid5 parse_uuid root_uuid sign_b64
    own2 signer2 r2 hid2 res2 hres2
  constructor
  · refine ⟨hs, ?_⟩
    rw [hi, hs, hc, if_neg hboot]
  · intro hsb hcnt
    rw [hs, hs2] at hsb
    rw [hc, hc2] at hcnt
    rw [hi, hi2, if_neg hboot, if_neg hboot2, hsb, hcnt]

/-- C1 witness: a concrete local save on `ownDevice5` (counter position 5)
of a record with an empty id; the save succeeds with `signed_by = own.id`
and the claimed UUIDv5-derived id. -/
theorem C1_local_save_id_witness :
    (ownDevice5.id ≠ "" ∧ blankRecord.id = "") ∧
    ∃ res, SyncedModel.save okUnitDes okDecode okVerify demoUuid5 String.length 99 demoSign
        (some ownDevice5) blankDevice false blankRecord = Except.ok res ∧
      res.record.signed_by_id = ownDevice5.id ∧
      res.record.id = uuidHex (demoUuid5 (String.length res.record.signed_by_id)
        (toString res.record.counter)) := by
  refine ⟨⟨by decide, rfl⟩, ⟨_, rfl, ?_⟩⟩
  exact (C1_local_save_id Unit okUnitDes okDecode okVerify demoUuid5 String.length 99 demoSign
    ownDevice5 ownDevice5 blankDevice blankDevice blankRecord blankRecord
    (by decide) rfl (by decide) rfl _ _ rfl rfl).1

/-- C2 counterexample: with a public-key deserializer that fails on the
stored key text, `verify()` on a signed record propagates the exception
(`Except.error`) to the caller instead of returning false, because
`key = self.signed_by.get_public_key()` runs outside the try block; this
contradicts the claim that any exception during verification yields false. -/
theorem C2_counterexample :
    SyncedModel.verify badKeyDes okDecode okVerify signedRecord remoteDevice3 =
      Except.error "bad key" := rfl

/-- C2 (amended): `verify()` returns false when `signed_by` is absent, and
false when a trusted signature is required and the signer is not trusted;
otherwise it deserializes the signer public key OUTSIDE the exception
handler, so a failure there propagates to the caller, while the result of
`crypto.verify` on the canonical bytes, decoded signature and key is
returned and any exception from `decode_base64`/`crypto.verify` yields
false. -/
theorem C2_verify_cases (K : Type) (des : String → Except String K)
    (dec : String → Except String String) (cv : String → String → K → Except String Bool)
    (r : SyncedModel) (signer : Device) :
    (r.signed_by_id = "" → r.verify des dec cv signer = Except.ok false) ∧
    (r.signed_by_id ≠ "" → r.requires_trusted_signature = true →
      (signer.get_metadata).is_trusted = false →
      r.verify des dec cv signer = Except.ok false) ∧
    (∀ e, r.signed_by_id ≠ "" →
      (r.requires_trusted_signature = false ∨ (signer.get_metadata).is_trusted = true) →
      des signer.public_key = Except.error e →
      r.verify des dec cv signer = Except.error e) ∧
    (∀ key b, r.signed_by_id ≠ "" →
      (r.requires_trusted_signature = false ∨ (signer.get_metadata).is_trusted = true) →
      des signer.public_key = Except.ok key →
      (do
        let sig ← dec r.signature
        cv r.canonical sig key : Except String Bool) = Except.ok b →
      r.verify des dec cv signer = Except.ok b) ∧
    (∀ key e, r.signed_by_id ≠ "" →
      (r.requires_trusted_signature = false ∨ (signer.get_metadata).is_trusted = true) →
      des signer.public_key = Except.ok key →
      (do
        let sig ← dec r.signature
        cv r.canonical sig key : Except String Bool) = Except.error e →
      r.verify des dec cv signer = Except.ok false) := by
  refine ⟨?_, ?_, ?_, ?_, ?_⟩
  · intro h
    simp [SyncedModel.verify, h]
  · intro h hrts htr
    simp [SyncedModel.verify, h, hrts, htr]
  · intro e h hgate hdes
    have hcond : (r.requires_trusted_signature && !(signer.get_metadata).is_trusted) = false := by
      rcases hgate with h1 | h1 <;> simp [h1]
    simp [SyncedModel.verify, h, hcond, hdes]
  · intro key b h hgate hdes hdo
    have hcond : (r.requires_trusted_signature && !(signer.get_metadata).is_trusted) = false := by
      rcases hgate with h1 | h1 <;> simp [h1]
    simp [SyncedModel.verify, h, hcond, hdes, hdo]
  · intro key e h hgate hdes hdo
    have hcond : (r.requires_trusted_signature && !(signer.get_metadata).is_trusted) = false := by
      rcases hgate with h1 | h1 <;> simp [h1]
    simp [SyncedModel.verify, h, hcond, hdes, hdo]

/-- C2 witness: every branch of the amended statement exercised concretely:
unsigned record, trust-gated record with an untrusted signer, propagated
deserializer failure, successful verification, and a swallowed base64
failure. -/
theorem C2_verify_cases_witness :
    SyncedModel.verify okUnitDes okDecode okVerify blankRecord remoteDevice3 = Except.ok false ∧
    SyncedModel.verify okUnitDes okDecode okVerify trustRecord remoteDevice3 = Except.ok false ∧
    SyncedModel.verify badKeyDes okDecode okVerify signedRecord remoteDevice3 =
      Except.error "bad key" ∧
    SyncedModel.verify okUnitDes okDecode okVerify signedRecord remoteDevice3 = Except.ok true ∧
    SyncedModel.verify okUnitDes badDecode okVerify signedRecord remoteDevice3 =
      Except.ok false := by
  refine ⟨?_, ?_, ?_, ?_, ?_⟩
  · exact (C2_verify_cases Unit okUnitDes okDecode okVerify blankRecord remoteDevice3).1 rfl
  · exact (C2_verify_cases Unit okUnitDes okDecode okVerify trustRecord remoteDevice3).2.1
      (by decide) rfl rfl
  · exact (C2_verify_cases Unit badKeyDes okDecode okVerify signedRecord remoteDevice3).2.2.1
      "bad key" (by decide) (Or.inl rfl) rfl
  · exact (C2_verify_cases Unit okUnitDes okDecode okVerify signedRecord remoteDevice3).2.2.2.1
      () true (by decide) (Or.inl rfl) rfl rfl
  · exact (C2_verify_cases Unit okUnitDes badDecode okVerify signedRecord remoteDevice3).2.2.2.2
      () "bad b64" (by decide) (Or.inl rfl) rfl rfl

/-- C4: for every imported save: a missing `signed_by` raises a validation
error, a false `verify()` raises a validation error (no record committed in
either case), and a successful save leaves the committed record unchanged
and advances the signer through `set_counter_position` with the record
counter. -/
theorem C4_imported_save (K : Type) (des : String → Except String K)
    (dec : String → Except String String) (cv : String → String → K → Except String Bool)
    (uuid5 : Nat → String → Nat) (parse_uuid : String → Nat) (root_uuid : Nat)
    (sign_b64 : String → String) (own signer : Device) (r : SyncedModel) :
    (r.signed_by_id = "" →
      SyncedModel.save des dec cv uuid5 parse_uuid root_uuid sign_b64
        (some own) signer true r =
        Except.error (SaveError.validation "Imported models must be signed.")) ∧
    (r.signed_by_id ≠ "" → r.verify des dec cv signer = Except.ok false →
      SyncedModel.save des dec cv uuid5 parse_uuid root_uuid sign_b64
        (some own) signer true r =
        Except.error (SaveError.validation "Imported model signature did not match.")) ∧
    (∀ res, SyncedModel.save des dec cv uuid5 parse_uuid root_uuid sign_b64
        (some own) signer true r = Except.ok res →
      res.signer = signer.set_counter_position r.counter ∧ res.record = r) := by
  refine ⟨?_, ?_, ?_⟩
  · intro h
    simp [SyncedModel.save, h]
  · intro h hv
    simp [SyncedModel.save, h, hv]
  · intro res h
    by_cases hsb : r.signed_by_id = ""
    · simp [SyncedModel.save, hsb] at h
    · cases hv : r.verify des dec cv signer with
      | error e => simp [SyncedModel.save, hsb, hv] at h
      | ok b =>
        cases b with
        | false => simp [SyncedModel.save, hsb, hv] at h
        | true =>
          simp [SyncedModel.save, hsb, hv] at h
          subst h
          exact ⟨rfl, rfl⟩

/-- C4 witness: the three branches exercised concretely: an unsigned
record, a record whose verification returns false, and a successful
imported save whose result advances the signer counter position to the
record counter and commits the record unchanged. -/
theorem C4_imported_save_witness :
    (SyncedModel.save okUnitDes okDecode okVerify demoUuid5 String.length 99 demoSign
        (some ownDevice5) remoteDevice3 true blankRecord =
      Except.error (SaveError.validation "Imported models must be signed.")) ∧
    (SyncedModel.save okUnitDes okDecode falseVerify demoUuid5 String.length 99 demoSign
        (some ownDevice5) remoteDevice3 true signedRecord =
      Except.error (SaveError.validation "Imported model signature did not match.")) ∧
    (∃ res, SyncedModel.save okUnitDes okDecode okVerify demoUuid5 String.length 99 demoSign
        (some ownDevice5) remoteDevice3 true signedRecord = Except.ok res ∧
      res.signer = remoteDevice3.set_counter_position signedRecord.counter ∧
      res.record = signedRecord) := by
  refine ⟨?_, ?_, ⟨_, rfl, ?_⟩⟩
  · exact (C4_imported_save Unit okUnitDes okDecode okVerify demoUuid5 String.length 99 demoSign
      ownDevice5 remoteDevice3 blankRecord).1 rfl
  · exact (C4_imported_save Unit okUnitDes okDecode falseVerify demoUuid5 String.length 99 demoSign
      ownDevice5 remoteDevice3 signedRecord).2.1 (by decide) rfl
  · exact (C4_imported_save Unit okUnitDes okDecode okVerify demoUuid5 String.length 99 demoSign
      ownDevice5 remoteDevice3 signedRecord).2.2 _ rfl

theorem int_succ_injective : Function.Injective (fun (i : Nat) => (i : Int) + 1) := by
  intro a b h
  simp only [] at h
  omega

set_option maxRecDepth 100000 in
/-- C5: with a single in-zone device holding 250 records with counters 1
through 250, starting peer knowledge 0 and limit 100, three rounds of the
batch selector (the client advancing its known counter past the retrieved
records after each round) retrieve all 250 records, each exactly once with
no duplicates, and each round returns at most `100 + boost` records (the
boost stays 0 because every round finds records immediately). -/
theorem C5_batch_completeness :
    c5_round1 ++ c5_round2 ++ c5_round3 =
      (List.range 250).map (fun (i : Nat) => (i : Int) + 1) ∧
    (c5_round1 ++ c5_round2 ++ c5_round3).Nodup ∧
    c5_round1.length ≤ 100 ∧ c5_round2.length ≤ 100 ∧ c5_round3.length ≤ 100 := by
  have h : c5_round1 ++ c5_round2 ++ c5_round3 =
      (List.range 250).map (fun (i : Nat) => (i : Int) + 1) := by decide
  refine ⟨h, ?_, by decide, by decide, by decide⟩
  rw [h]
  exact (List.nodup_range 250).map int_succ_injective

theorem mk_chunk_some_length (g : String → Value) (f c : String)
    (h : mk_chunk g f = some c) : 1 ≤ c.length := by
  by_cases hf : (g f).isFalsy
  · simp [mk_chunk, hf] at h
  · simp [mk_chunk, hf] at h
    rw [← h]
    simp only [String.length_append]
    have h1 : ("=" : String).length = 1 := rfl
    omega

theorem chunks_sublist (g g2 : String → Value) (f : String)
    (hfalsy : (g f).isFalsy = true) (htruthy : (g2 f).isFalsy = false)
    (hagree : ∀ x, x ≠ f → g x = g2 x) :
    ∀ F : List String,
      (F.filterMap (mk_chunk g)).Sublist (F.filterMap (mk_chunk g2)) ∧
      (f ∈ F → (F.filterMap (mk_chunk g)).length < (F.filterMap (mk_chunk g2)).length) := by
  intro F
  induction F with
  | nil => exact ⟨List.Sublist.slnil, by simp⟩
  | cons x F ih =>
    by_cases hx : x = f
    · subst hx
      have h1 : mk_chunk g x = Option.none := by simp [mk_chunk, hfalsy]
      have h2 : mk_chunk g2 x = some (x ++ "=" ++ (g2 x).render) := by
        simp [mk_chunk, htruthy]
      rw [List.filterMap_cons, List.filterMap_cons, h1, h2]
      refine ⟨List.Sublist.cons _ ih.1, fun _ => ?_⟩
      have := ih.1.length_le
      simp only [List.length_cons]
      omega
    · have heq : mk_chunk g x = mk_chunk g2 x := by
        simp only [mk_chunk, hagree x hx]
      have hmemf : f ∈ x :: F → f ∈ F := by
        intro hf2
        rcases List.mem_cons.mp hf2 with h | h
        · exact absurd h.symm hx
        · exact h
      rw [List.filterMap_cons, List.filterMap_cons, heq]
      cases hm : mk_chunk g2 x with
      | none =>
        exact ⟨ih.1, fun hf2 => ih.2 (hmemf hf2)⟩
      | some c =>
        refine ⟨List.Sublist.cons₂ _ ih.1, fun hf2 => ?_⟩
        have := ih.2 (hmemf hf2)
        simp only [List.length_cons]
        omega

theorem sum_le_of_sublist {l1 l2 : List Nat} (h : l1.Sublist l2) : l1.sum ≤ l2.sum := by
  induction h with
  | slnil => simp
  | cons a _ ih => simp only [List.sum_cons]; omega
  | cons₂ a _ ih => simp only [List.sum_cons]; omega

theorem joinAmp_length (l : List String) (h : l ≠ []) :
    (joinAmp l).length + 1 = (l.map String.length).sum + l.length := by
  induction l with
  | nil => exact absurd rfl h
  | cons c cs ih =>
    cases cs with
    | nil => simp [joinAmp]
    | cons c2 cs2 =>
      have hih := ih (by simp)
      have hamp : ("&" : String).length = 1 := rfl
      simp only [joinAmp, String.length_append, List.map_cons, List.sum_cons,
        List.length_cons] at hih ⊢
      omega

theorem length_le_sum_of_one_le {l : List String} (h : ∀ c ∈ l, 1 ≤ c.length) :
    l.length ≤ (l.map String.length).sum := by
  induction l with
  | nil => simp
  | cons a t ih =>
    simp only [List.length_cons, List.map_cons, List.sum_cons]
    have ha := h a (by simp)
    have ht := ih (fun c hc => h c (by simp [hc]))
    omega

/-- C8: for every attribute view, hashed field list and signable field, a
falsy value contributes no token to the canonical hash chunks; flipping
that field to a truthy value makes the token `"<name>=<value>"` appear in
the chunks and changes the canonical hash string, so prior signatures stop
validating. -/
theorem C8_falsy_field_exclusion (getattr getattr2 : String → Value)
    (fieldsOpt : Option (List String)) (metaFields : List String) (f : String)
    (hmem : f ∈ final_fields fieldsOpt metaFields)
    (hfalsy : (getattr f).isFalsy = true)
    (htruthy : (getattr2 f).isFalsy = false)
    (hagree : ∀ x, x ≠ f → getattr x = getattr2 x) :
    mk_chunk getattr f = Option.none ∧
    (f ++ "=" ++ (getattr2 f).render) ∈ hash_chunks getattr2 fieldsOpt metaFields ∧
    hashable_representation getattr fieldsOpt metaFields ≠
      hashable_representation getattr2 fieldsOpt metaFields := by
  have hnone : mk_chunk getattr f = Option.none := by simp [mk_chunk, hfalsy]
  have hsome : mk_chunk getattr2 f = some (f ++ "=" ++ (getattr2 f).render) := by
    simp [mk_chunk, htruthy]
  refine ⟨hnone, ?_, ?_⟩
  · rw [hash_chunks]
    exact List.mem_filterMap.mpr ⟨f, hmem, hsome⟩
  · obtain ⟨hsub, hltf⟩ := chunks_sublist getattr getattr2 f hfalsy htruthy hagree
      (final_fields fieldsOpt metaFields)
    have hlt := hltf hmem
    have hles : (((final_fields fieldsOpt metaFields).filterMap (mk_chunk getattr)).map
          String.length).sum ≤
        (((final_fields fieldsOpt metaFields).filterMap (mk_chunk getattr2)).map
          String.length).sum :=
      sum_le_of_sublist (hsub.map String.length)
    have hone : ∀ c ∈ (final_fields fieldsOpt metaFields).filterMap (mk_chunk getattr2),
        1 ≤ c.length := by
      intro c hc
      obtain ⟨a, _, ha⟩ := List.mem_filterMap.mp hc
      exact mk_chunk_some_length getattr2 a c ha
    have hne2 : (final_fields fieldsOpt metaFields).filterMap (mk_chunk getattr2) ≠ [] := by
      intro h0
      rw [h0] at hlt
      simp at hlt
    have hsums : ((final_fields fieldsOpt metaFields).filterMap (mk_chunk getattr2)).length ≤
        (((final_fields fieldsOpt metaFields).filterMap (mk_chunk getattr2)).map
          String.length).sum :=
      length_le_sum_of_one_le hone
    intro hEq
    have hlenEq := congrArg String.length hEq
    rw [hashable_representation, hashable_representation, hash_chunks, hash_chunks] at hlenEq
    by_cases h1 : (final_fields fieldsOpt metaFields).filterMap (mk_chunk getattr) = []
    · rw [h1] at hlenEq hlt
      have hj2 := joinAmp_length _ hne2
      have h0 : (joinAmp ([] : List String)).length = 0 := rfl
      rw [h0] at hlenEq
      simp only [List.length_nil] at hlt
      omega
    · have hj1 := joinAmp_length _ h1
      have hj2 := joinAmp_length _ hne2
      omega

/-- C8 witness: the statement applied to a concrete three-field list with
the `name` field flipped from `""` to `"n"`. -/
theorem C8_falsy_field_exclusion_witness :
    mk_chunk attrsFalsyName "name" = Option.none ∧
    ("name" ++ "=" ++ (attrsTruthyName "name").render) ∈
      hash_chunks attrsTruthyName (some ["id", "signed_version", "name"]) [] ∧
    hashable_representation attrsFalsyName (some ["id", "signed_version", "name"]) [] ≠
      hashable_representation attrsTruthyName (some ["id", "signed_version", "name"]) [] := by
  refine C8_falsy_field_exclusion attrsFalsyName attrsTruthyName
    (some ["id", "signed_version", "name"]) [] "name" (by decide) rfl rfl ?_
  intro x hx
  simp [attrsFalsyName, attrsTruthyName, hx]

theorem save_row_serialized_models (oc : Int) (q : ImportPurgatory) :
    (ImportPurgatory.save_row oc q).serialized_models = q.serialized_models := by
  rw [ImportPurgatory.save_row]
  split <;> rfl

theorem save_row_exceptions (oc : Int) (q : ImportPurgatory) :
    (ImportPurgatory.save_row oc q).exceptions = q.exceptions := by
  rw [ImportPurgatory.save_row]
  split <;> rfl

theorem save_row_retry_attempts (oc : Int) (q : ImportPurgatory) :
    (ImportPurgatory.save_row oc q).retry_attempts = q.retry_attempts := by
  rw [ImportPurgatory.save_row]
  split <;> rfl

theorem attempt_saves_count {ρ σ : Type} (save_one : ρ → σ → Except String σ) :
    ∀ (ms : List ρ) (st : σ),
      (attempt_saves save_one ms st).2.1 + (attempt_saves save_one ms st).2.2.length =
        ms.length := by
  intro ms
  induction ms with
  | nil => intro st; rfl
  | cons m rest ih =>
    intro st
    cases h : save_one m st with
    | ok st1 =>
      simp only [attempt_saves, h]
      have := ih st1
      simp only [List.length_cons]
      omega
    | error e =>
      simp only [attempt_saves, h]
      have := ih st
      simp only [List.length_cons]
      omega

/-- C9: after `save_serialized_models(data)`: the returned saved and
unsaved counts always sum to the number of deserialized input records; when
at least one imported save raised a validation error, a purgatory row
exists afterwards whose `serialized_models` is the re-serialization of
exactly the unsaved records, whose `exceptions` text concatenates their
error messages (one per line) and whose `retry_attempts` is one greater
than before (0 for a fresh row); and when every record saved and the input
was an existing purgatory row, no row remains (the retried row is
deleted). -/
theorem C9_save_serialized_models {ρ σ : Type} (serialize : List ρ → String)
    (deserialize : String → List ρ) (save_one : ρ → σ → Except String σ)
    (own_counter : Int) (data : ImportInput ρ) (st : σ) :
    ∀ out, save_serialized_models serialize deserialize save_one own_counter data st = out →
      out.saved_model_count + out.unsaved_model_count =
        (importedModels deserialize data).length ∧
      (0 < out.unsaved_model_count →
        ∃ row, out.purgatory_row = some row ∧
          row.serialized_models = serialize
            ((attempt_saves save_one (importedModels deserialize data) st).2.2.map Prod.fst) ∧
          row.exceptions =
            ((attempt_saves save_one (importedModels deserialize data) st).2.2.map
              (fun q => q.2 ++ "\n")).foldr (· ++ ·) "" ∧
          row.retry_attempts = (match data with
            | ImportInput.purgatory p => p.retry_attempts
            | ImportInput.raw _ => 0) + 1) ∧
      (out.unsaved_model_count = 0 → ∀ p, data = ImportInput.purgatory p →
        out.purgatory_row = Option.none) := by
  intro out hout
  subst hout
  cases data with
  | raw l =>
    refine ⟨?_, ?_, ?_⟩
    · simp only [save_serialized_models, importedModels, List.length_map]
      exact attempt_saves_count save_one l st
    · intro hpos
      simp only [save_serialized_models, importedModels] at hpos ⊢
      have hne : ((attempt_saves save_one l st).2.2.map Prod.fst).isEmpty = false := by
        cases hu : ((attempt_saves save_one l st).2.2.map Prod.fst) with
        | nil =>
          rw [hu] at hpos
          simp at hpos
        | cons a t => rfl
      simp only [hne, Bool.false_eq_true, if_false]
      refine ⟨_, rfl, ?_, ?_, ?_⟩
      · rw [save_row_serialized_models]
      · rw [save_row_exceptions]
      · rw [save_row_retry_attempts]
        rfl
    · intro _ p hp
      exact ImportInput.noConfusion hp
  | purgatory p =>
    refine ⟨?_, ?_, ?_⟩
    · simp only [save_serialized_models, importedModels, List.length_map]
      exact attempt_saves_count save_one (deserialize p.serialized_models) st
    · intro hpos
      simp only [save_serialized_models, importedModels] at hpos ⊢
      have hne : ((attempt_saves save_one (deserialize p.serialized_models) st).2.2.map
          Prod.fst).isEmpty = false := by
        cases hu : ((attempt_saves save_one (deserialize p.serialized_models) st).2.2.map
            Prod.fst) with
        | nil =>
          rw [hu] at hpos
          simp at hpos
        | cons a t => rfl
      simp only [hne, Bool.false_eq_true, if_false]
      refine ⟨_, rfl, ?_, ?_, ?_⟩
      · rw [save_row_serialized_models]
      · rw [save_row_exceptions]
      · rw [save_row_retry_attempts]
        rfl
    · intro h0 q hq
      injection hq with hq2
      subst hq2
      simp only [save_serialized_models, importedModels] at h0 ⊢
      have hnil : ((attempt_saves save_one (deserialize p.serialized_models) st).2.2.map
          Prod.fst) = [] := List.length_eq_zero.mp h0
      simp [hnil]

/-- C9 witness: a raw import of `[2, 3, 4]` under a save that rejects odd
records (counts 2 saved and 1 unsaved, purgatory row holding the
re-serialized `[3]`, the error line, retry attempt 1), and a retried
purgatory row whose records all save, which is deleted. -/
theorem C9_save_serialized_models_witness :
    (save_serialized_models demoSerialize demoDeserialize evenSave 9
        (ImportInput.raw [2, 3, 4]) ()).saved_model_count +
      (save_serialized_models demoSerialize demoDeserialize evenSave 9
        (ImportInput.raw [2, 3, 4]) ()).unsaved_model_count = 3 ∧
    (∃ row, (save_serialized_models demoSerialize demoDeserialize evenSave 9
        (ImportInput.raw [2, 3, 4]) ()).purgatory_row = some row ∧
      row.serialized_models = demoSerialize [3] ∧
      row.exceptions = "odd" ++ "\n" ∧
      row.retry_attempts = 1) ∧
    (save_serialized_models demoSerialize demoDeserialize evenSave 9
        (ImportInput.purgatory ⟨5, 2, "blob", "old"⟩) ()).purgatory_row = Option.none := by
  refine ⟨?_, ?_, ?_⟩
  · exact (C9_save_serialized_models demoSerialize demoDeserialize evenSave 9
      (ImportInput.raw [2, 3, 4]) () _ rfl).1
  · obtain ⟨row, h1, h2, h3, h4⟩ := (C9_save_serialized_models demoSerialize demoDeserialize
      evenSave 9 (ImportInput.raw [2, 3, 4]) () _ rfl).2.1 (by decide)
    exact ⟨row, h1, h2, h3, h4⟩
  · exact (C9_save_serialized_models demoSerialize demoDeserialize evenSave 9
      (ImportInput.purgatory ⟨5, 2, "blob", "old"⟩) () _ rfl).2.2 (by decide) _ rfl
